import Mathlib

/-!
A shallow embedding of the crash-game round engine of
`controllers/GameController.js`, together with theorems settling the
frozen claims about it.

Modelling conventions:
* machine numbers are modelled as exact rationals (`ℚ`); the
  `parseInt(hash.slice(0, 13), 16)` hex parse is modelled on hex-digit
  prefixes as a natural number;
* a balances entry `user.balances[currency]` is an `Option ℚ`, where
  `none` stands for the JavaScript `undefined`-or-`NaN` case (both
  behave identically in the comparisons and arithmetic the controller
  performs: `<` is false, `-=` and `+=` propagate the non-number);
* the mongoose store is modelled as in-memory lists of documents;
  `findOne`/`save` calls that can throw a transient store error are
  guarded by explicit success flags (`StoreFlags`); a thrown error is
  caught by the controller's `catch` block, which only logs, so the
  handler result carries `reply = none` and only the mutations whose
  `save` completed;
* SHA-256 is an abstract function parameter `hashFn : String → String`,
  since every claim about it only uses that the stored hash equals the
  function applied to the stored seed.
-/

set_option maxHeartbeats 1000000

namespace Crash

/-- Value of one hex digit, exactly the digits accepted by
`parseInt(-, 16)`: `0`-`9`, `a`-`f`, `A`-`F`. -/
def hexDigitVal (c : Char) : Option ℕ :=
  if 48 ≤ c.toNat ∧ c.toNat ≤ 57 then some (c.toNat - 48)
  else if 97 ≤ c.toNat ∧ c.toNat ≤ 102 then some (c.toNat - 87)
  else if 65 ≤ c.toNat ∧ c.toNat ≤ 70 then some (c.toNat - 55)
  else none

/-- `parseInt(s, 16)` on the longest hex-digit prefix of the character
list: accumulates digits until the first non-hex character. -/
def parseHexDigits : List Char → ℕ → ℕ
  | [], acc => acc
  | c :: cs, acc =>
    match hexDigitVal c with
    | some v => parseHexDigits cs (16 * acc + v)
    | none => acc

/-- `getBustMultiplier(hash)` from `GameController.js` lines 21-27, in
exact rational arithmetic:
`h = parseInt(hash.slice(0, 13), 16)`, `e = 2 ** 52`;
if `h % 33 === 0` it returns `1.0`; otherwise it returns
`Math.floor((100 * (e - h)) / (e - 1)) / 100` (for `h` in the 52-bit
range both operands are non-negative, so the floor of the quotient is
natural-number division). -/
def getBustMultiplier (hash : String) : ℚ :=
  let h := parseHexDigits (hash.toList.take 13) 0
  if h % 33 = 0 then 1
  else (((100 * (2 ^ 52 - h)) / (2 ^ 52 - 1) : ℕ) : ℚ) / 100

/-- `getRoundHash(serverSeed, clientSeed, nonce)` from
`GameController.js` lines 30-32: the SHA-256 (abstract `hashFn`) of the
textual concatenation with `:` separators. -/
def getRoundHash (hashFn : String → String) (serverSeed clientSeed : String)
    (nonce : ℕ) : String :=
  hashFn (serverSeed ++ ":" ++ clientSeed ++ ":" ++ toString nonce)

/-- One bet entry of `round.bets`, as pushed by `handleBet`:
`{ walletAddress, amount, currency, cashedOut: false }`. -/
structure Bet where
  walletAddress : String
  amount : ℚ
  currency : String
  cashedOut : Bool
  deriving DecidableEq

/-- A `GameRound` document.  `startTime` is an abstract timestamp
(later rounds have larger `startTime`); `_id` is modelled as `id : ℕ`. -/
structure GameRound where
  id : ℕ
  startTime : ℕ
  crashMultiplier : ℚ
  roundHash : String
  seedHash : String
  bets : List Bet
  deriving DecidableEq

/-- A `ProvablyFairSeed` document (the `revealedAt` timestamp is
omitted; no claim mentions it). -/
structure SeedDoc where
  serverSeed : String
  serverSeedHash : String
  revealed : Bool
  deriving DecidableEq

/-- A `User` document: `balances` maps a currency name to the stored
number, `none` standing for `undefined`-or-`NaN`. -/
structure User where
  walletAddress : String
  balances : String → Option ℚ
  clientSeed : String

/-- The module-level mutable game state of `GameController.js`
(`currentMultiplier`, `gameState`, `isRunning`, `timeElapsed`) together
with the durable store collections (users, rounds, seeds). -/
structure EngineState where
  gameState : String
  isRunning : Bool
  currentMultiplier : ℚ
  timeElapsed : ℚ
  users : List User
  rounds : List GameRound
  seeds : List SeedDoc

/-- Success flags for the store operations a handler awaits; a `false`
flag means that call throws a transient store error (which the
handler's `catch` block swallows after logging). -/
structure StoreFlags where
  findUserOk : Bool
  findRoundOk : Bool
  saveUserOk : Bool
  saveRoundOk : Bool

/-- The all-operations-succeed store schedule. -/
def allOk : StoreFlags :=
  ⟨true, true, true, true⟩

/-- Outbound messages (both direct `ws.send` replies and `broadcast`
fan-out), by their `action` kind.  2-decimal `toFixed` strings are
modelled by the rational value they print. -/
inductive Msg where
  | ERROR (message : String)
  | BET_PLACED (walletAddress : String) (amount : ℚ) (currency : String)
  | PLAYER_BET (walletAddress : String) (amount : ℚ) (currency : String)
  | CASHOUT_SUCCESS (walletAddress : String) (winnings : ℚ) (multiplier : ℚ)
  | PLAYER_CASHED_OUT (walletAddress : String) (winnings : ℚ) (multiplier : ℚ)
  | ROUND_CRASHED (multiplier : ℚ)
  | SEED_REVEALED (serverSeed : String) (serverSeedHash : String)
  deriving DecidableEq

/-- Result of one inbound request or round transition: the direct
`ws.send` reply (if any; `none` means the request terminated without a
response), the `broadcast` messages, and the resulting engine state. -/
structure HandlerResult where
  reply : Option Msg
  broadcasts : List Msg
  state : EngineState

/-- JavaScript `<` between a balances entry and a number:
`undefined < x` and `NaN < x` are `false`. -/
def jsLt (a : Option ℚ) (b : ℚ) : Bool :=
  match a with
  | some x => decide (x < b)
  | none => false

/-- JavaScript `-=` on a balances entry: subtracting from
`undefined`/`NaN` stays a non-number. -/
def jsSub (a : Option ℚ) (b : ℚ) : Option ℚ :=
  a.map (fun x => x - b)

/-- JavaScript `+=` on a balances entry. -/
def jsAdd (a : Option ℚ) (b : ℚ) : Option ℚ :=
  a.map (fun x => x + b)

/-- Write one entry of a balances map. -/
def setBalance (bal : String → Option ℚ) (c : String) (v : Option ℚ) :
    String → Option ℚ :=
  fun c' => if c' = c then v else bal c'

/-- `User.findOne({ walletAddress })`. -/
def findUser (users : List User) (w : String) : Option User :=
  users.find? (fun u => u.walletAddress == w)

/-- `user.save()`: replace the stored document with the same
`walletAddress`. -/
def saveUser (users : List User) (u : User) : List User :=
  users.map (fun x => if x.walletAddress == u.walletAddress then u else x)

/-- Helper for `findLatestRound`: left fold keeping the round with the
strictly largest `startTime` (first one wins ties). -/
def latestFrom (a : GameRound) : List GameRound → GameRound
  | [] => a
  | r :: rs => latestFrom (if a.startTime < r.startTime then r else a) rs

/-- `GameRound.findOne().sort({ startTime: -1 })`: the stored round
with the largest `startTime`. -/
def findLatestRound : List GameRound → Option GameRound
  | [] => none
  | r :: rs => some (latestFrom r rs)

/-- `round.save()`: replace the stored document with the same `_id`. -/
def saveRound (rounds : List GameRound) (r : GameRound) : List GameRound :=
  rounds.map (fun x => if x.id == r.id then r else x)

/-- `GameRound.findById(id)`. -/
def findRoundById (rounds : List GameRound) (i : ℕ) : Option GameRound :=
  rounds.find? (fun r => r.id == i)

/-- The in-place `bet.cashedOut = true` mutation through the reference
returned by `round.bets.find(...)`: flips the first bet of the wallet. -/
def setCashedOutFirst : List Bet → String → List Bet
  | [], _ => []
  | b :: bs, w =>
    if b.walletAddress == w then { b with cashedOut := true } :: bs
    else b :: setCashedOutFirst bs w

/-- `currentSeed.revealed = true; currentSeed.save()` applied to the
document returned by `ProvablyFairSeed.findOne({ revealed: false })`:
marks the first unrevealed commitment revealed, touching nothing else. -/
def revealFirstUnrevealed : List SeedDoc → List SeedDoc
  | [] => []
  | d :: ds =>
    if d.revealed == false then { d with revealed := true } :: ds
    else d :: revealFirstUnrevealed ds

/-- `ensureSeed()` from `GameController.js` lines 47-56: return the
current unrevealed commitment, creating one (with
`serverSeedHash = sha256(serverSeed)`) when none exists.  The random
`generateServerSeed()` output is the parameter `newSeed`. -/
def ensureSeed (hashFn : String → String) (newSeed : String)
    (seeds : List SeedDoc) : SeedDoc × List SeedDoc :=
  match seeds.find? (fun d => d.revealed == false) with
  | some d => (d, seeds)
  | none => (⟨newSeed, hashFn newSeed, false⟩, seeds ++ [⟨newSeed, hashFn newSeed, false⟩])

/-- `handleBet(ws, data, wss)` from `GameController.js` lines 175-202.
Checks, in source order: the `waiting` phase gate, user existence, the
balance comparison, round existence; then persists the balance
decrement (`user.save()`) and the appended bet (`round.save()`), and
replies `BET_PLACED` while broadcasting `PLAYER_BET`.  A store call
whose flag is `false` throws; the `catch` block only logs, so the
result keeps the mutations persisted so far and carries no reply. -/
def handleBet (io : StoreFlags) (walletAddress : String) (amount : ℚ)
    (currency : String) (s : EngineState) : HandlerResult :=
  if s.gameState ≠ "waiting" then
    ⟨some (Msg.ERROR ("Betting closed.")), [], s⟩
  else if io.findUserOk = false then
    ⟨none, [], s⟩
  else
    match findUser s.users walletAddress with
    | none => ⟨some (Msg.ERROR ("User not found.")), [], s⟩
    | some user =>
      if jsLt (user.balances currency) amount then
        ⟨some (Msg.ERROR ("Insufficient balance.")), [], s⟩
      else if io.findRoundOk = false then
        ⟨none, [], s⟩
      else
        match findLatestRound s.rounds with
        | none => ⟨some (Msg.ERROR ("No active round.")), [], s⟩
        | some round =>
          let user' : User :=
            { user with balances :=
                (setBalance user.balances currency
                  (jsSub (user.balances currency) amount)) }
          if io.saveUserOk = false then
            ⟨none, [], s⟩
          else
            let s1 : EngineState := { s with users := saveUser s.users user' }
            let round' : GameRound :=
              { round with bets := round.bets ++ [⟨walletAddress, amount, currency, false⟩] }
            if io.saveRoundOk = false then
              ⟨none, [], s1⟩
            else
              let s2 : EngineState := { s1 with rounds := saveRound s1.rounds round' }
              ⟨some (Msg.BET_PLACED walletAddress amount currency),
                [Msg.PLAYER_BET walletAddress amount currency], s2⟩

/-- `handleCashout(ws, data, wss)` from `GameController.js` lines
205-242.  Checks, in source order: the `isRunning` gate, the latest
round (a missing round makes `round.bets` throw, silently caught), the
wallet's first bet, its `cashedOut` flag; then computes
`winnings = Math.floor(bet.amount * currentMultiplier * 100) / 100`,
persists the credit (`user.save()`; a missing user makes
`user.balances` throw, silently caught) and the flipped flag
(`round.save()`), replies `CASHOUT_SUCCESS` and broadcasts
`PLAYER_CASHED_OUT`. -/
def handleCashout (io : StoreFlags) (walletAddress : String)
    (s : EngineState) : HandlerResult :=
  if s.isRunning = false then
    ⟨some (Msg.ERROR ("Cannot cash out now.")), [], s⟩
  else if io.findRoundOk = false then
    ⟨none, [], s⟩
  else
    match findLatestRound s.rounds with
    | none => ⟨none, [], s⟩
    | some round =>
      match round.bets.find? (fun b => b.walletAddress == walletAddress) with
      | none => ⟨some (Msg.ERROR ("No active bet.")), [], s⟩
      | some bet =>
        if bet.cashedOut then
          ⟨some (Msg.ERROR ("Already cashed out.")), [], s⟩
        else if io.findUserOk = false then
          ⟨none, [], s⟩
        else
          match findUser s.users walletAddress with
          | none => ⟨none, [], s⟩
          | some user =>
            let winnings : ℚ := ((⌊bet.amount * s.currentMultiplier * 100⌋ : ℤ) : ℚ) / 100
            let user' : User :=
              { user with balances :=
                  (setBalance user.balances bet.currency
                    (jsAdd (user.balances bet.currency) winnings)) }
            if io.saveUserOk = false then
              ⟨none, [], s⟩
            else
              let s1 : EngineState := { s with users := saveUser s.users user' }
              let round' : GameRound :=
                { round with bets := setCashedOutFirst round.bets walletAddress }
              if io.saveRoundOk = false then
                ⟨none, [], s1⟩
              else
                let s2 : EngineState := { s1 with rounds := saveRound s1.rounds round' }
                ⟨some (Msg.CASHOUT_SUCCESS walletAddress winnings s.currentMultiplier),
                  [Msg.PLAYER_CASHED_OUT walletAddress winnings s.currentMultiplier], s2⟩

/-- `endGame(wss, roundId)` from `GameController.js` lines 141-172 (the
store success path; the trailing `setTimeout(startGame)` is not part of
the state change).  Overwrites the round's `crashMultiplier` with the
live `currentMultiplier`, broadcasts `ROUND_CRASHED`, and — when
`countDocuments() % 100 === 0` — reveals the current unrevealed seed
commitment and broadcasts `SEED_REVEALED`. -/
def endGame (roundId : ℕ) (s : EngineState) : HandlerResult :=
  match findRoundById s.rounds roundId with
  | none => ⟨none, [], s⟩
  | some round =>
    let round' : GameRound := { round with crashMultiplier := s.currentMultiplier }
    let s1 : EngineState := { s with rounds := saveRound s.rounds round' }
    if s1.rounds.length % 100 = 0 then
      match s1.seeds.find? (fun d => d.revealed == false) with
      | none => ⟨none, [Msg.ROUND_CRASHED s.currentMultiplier], s1⟩
      | some cur =>
        let s2 : EngineState := { s1 with seeds := revealFirstUnrevealed s1.seeds }
        ⟨none, [Msg.ROUND_CRASHED s.currentMultiplier,
          Msg.SEED_REVEALED cur.serverSeed cur.serverSeedHash], s2⟩
    else ⟨none, [Msg.ROUND_CRASHED s.currentMultiplier], s1⟩

/-- The countdown-elapsed transition of `startGame` (lines 92-104):
sets `gameState = "running"` and `isRunning = true`, computes the nonce
as `GameRound.countDocuments()`, derives the round hash and crash point
from the server seed and the fixed client seed, and persists them on
the round.  `currentMultiplier` stays at its reset value 1.0 until the
first 50ms tick. -/
def startRunning (hashFn : String → String) (serverSeed : String)
    (roundId : ℕ) (s : EngineState) : EngineState :=
  let s0 : EngineState := { s with gameState := "running", isRunning := true }
  let roundHash := getRoundHash hashFn serverSeed ("global_client_seed") s0.rounds.length
  match findRoundById s0.rounds roundId with
  | none => s0
  | some round =>
    let round' : GameRound :=
      { round with crashMultiplier := getBustMultiplier roundHash, roundHash := roundHash }
    { s0 with rounds := saveRound s0.rounds round' }

/-- One 50ms tick of the multiplier loop (lines 116-132).  The new
multiplier `parseFloat(Math.pow(2, timeElapsed / 10).toFixed(2))` is an
irrational-valued expression rounded to two decimals; it is passed in
as the parameter `newMultiplier`, since the claims only concern which
state fields a tick writes. -/
def tick (newMultiplier : ℚ) (s : EngineState) : EngineState :=
  { s with timeElapsed := s.timeElapsed + 1 / 20,
           currentMultiplier := newMultiplier }

/-- Scenario constant: a wallet `w` holding `{ USD: 1000 }` (the User
model default). -/
def balW : String → Option ℚ :=
  fun c => if c = "USD" then some 1000 else none

/-- Scenario constant: the user document of wallet `w`. -/
def userW : User :=
  ⟨"w", balW, "player_client_seed"⟩

/-- Scenario constant: a fresh round with an empty bet list. -/
def round0 : GameRound :=
  ⟨0, 0, 0, "", "sh0", []⟩

/-- Scenario constant: a waiting-phase engine state with user `w` and
one fresh round. -/
def sW : EngineState :=
  ⟨"waiting", false, 1, 0, [userW], [round0], []⟩

/-- Scenario constant: the state after `w` places a 100 USD bet in
`sW`. -/
def sW1 : EngineState :=
  (handleBet allOk ("w") 100 ("USD") sW).state

/-- Scenario constant: a wallet `z` holding `{ USD: 0 }`. -/
def balZ : String → Option ℚ :=
  fun c => if c = "USD" then some 0 else none

/-- Scenario constant: the user document of wallet `z`. -/
def userZ : User :=
  ⟨"z", balZ, "player_client_seed"⟩

/-- Scenario constant: a waiting-phase engine state with user `z` and
one fresh round. -/
def sZ : EngineState :=
  ⟨"waiting", false, 1, 0, [userZ], [round0], []⟩

/-- Scenario constant: the state after `z` places a bet of `-0.001 USD`
in `sZ` (accepted: `0 < -0.001` is false, so the balance check passes),
followed by the transition into the running phase.  Per `startGame`,
`currentMultiplier` is still at its reset value 1.0 inside the running
phase until the first 50ms tick fires. -/
def sZrun : EngineState :=
  { (handleBet allOk ("z") (-(1 / 1000)) ("USD") sZ).state with
      gameState := "running", isRunning := true }

/-- Scenario constant: a hash function whose output has first 13 hex
characters `0000000000002`, i.e. `h = 2`. -/
def hash2Fn : String → String :=
  fun _ => "0000000000002"

/-- Scenario constant: a waiting state with one fresh round and no
users. -/
def sR : EngineState :=
  ⟨"waiting", false, 1, 0, [], [round0], []⟩

/-- Scenario constant: `sR` after the running transition derives and
persists the crash point from `hash2Fn`. -/
def sR1 : EngineState :=
  startRunning hash2Fn ("seedA") 0 sR

/-- Scenario constant: `sR1` after `endGame` runs for the round (the
first tick put `currentMultiplier` at 1.00 ≥ the 0.99 crash point, so
the crash fires with `currentMultiplier = 1`). -/
def sR2 : EngineState :=
  (endGame 0 sR1).state

/-- Store schedule where `round.save()` throws and everything else
succeeds. -/
def ioNoRoundSave : StoreFlags :=
  ⟨true, true, true, false⟩

/-- Store schedule where `User.findOne` throws and everything else
succeeds. -/
def ioNoUserFind : StoreFlags :=
  ⟨false, true, true, true⟩

/-- Store schedule where `GameRound.findOne` throws and everything else
succeeds. -/
def ioNoRoundFind : StoreFlags :=
  ⟨true, false, true, true⟩

/-- Scenario constant: `sW` moved to the running phase. -/
def sRunW : EngineState :=
  { sW with gameState := "running", isRunning := true }

/-- Scenario constant: an uncashed 100 USD bet by `w`. -/
def betW : Bet :=
  ⟨"w", 100, "USD", false⟩

/-- Scenario constant: a round carrying `betW`. -/
def roundBet : GameRound :=
  ⟨0, 0, 0, "", "sh0", [betW]⟩

/-- Scenario constant: a running state in which `w` holds an uncashed
bet. -/
def sCash : EngineState :=
  ⟨"running", true, 1, 0, [userW], [roundBet], []⟩

/-- Scenario constant: `betW` already cashed out. -/
def betF : Bet :=
  ⟨"w", 100, "USD", true⟩

/-- Scenario constant: a round carrying the cashed-out `betF`. -/
def roundF : GameRound :=
  ⟨0, 0, 0, "", "sh0", [betF]⟩

/-- Scenario constant: a running state in which `w`'s bet is already
cashed out. -/
def sFlagged : EngineState :=
  ⟨"running", true, 1, 0, [userW], [roundF], []⟩

/-- Scenario constant: a concrete hash function for seed-commitment
scenarios. -/
def hashFnW : String → String :=
  fun x => ("h:") ++ x

/-- Scenario constant: one unrevealed seed commitment whose stored hash
is `hashFnW` of its seed. -/
def seedA : SeedDoc :=
  ⟨"sA", hashFnW ("sA"), false⟩

/-- Scenario constant: a state with 100 stored rounds (so the
`% 100 === 0` reveal cadence fires) and the single commitment
`seedA`. -/
def sSeed : EngineState :=
  ⟨"running", false, 1, 0, [], List.replicate 100 round0, [seedA]⟩

/-- Every numeric balance entry of the user is non-negative. -/
def nonNegBalances (u : User) : Prop :=
  ∀ c q, u.balances c = some q → 0 ≤ q

/-- Every bet recorded in the round has a non-negative amount. -/
def betsNonNeg (r : GameRound) : Prop :=
  ∀ b ∈ r.bets, 0 ≤ b.amount

end Crash

namespace Crash

/-- C1 (code evaluation at the failing inputs): the spec demands a
minimum multiplier of 1.01, but `getBustMultiplier` returns exactly 1.0
on the `h % 33 == 0` branch (first 13 hex chars `0000000000021`, i.e.
`h = 33`), and `0.99 < 1.01` already at `h = 2` (hash
`0000000000002`); no clamp to 1.01 exists anywhere in the function. -/
theorem getBustMultiplier_spec_violation :
    getBustMultiplier ("0000000000021") = 1
    ∧ getBustMultiplier ("0000000000002") = 99 / 100
    ∧ ¬ (101 / 100 ≤ getBustMultiplier ("0000000000021"))
    ∧ ¬ (101 / 100 ≤ getBustMultiplier ("0000000000002")) := by
  have h33 : parseHexDigits (("0000000000021" : String).toList.take 13) 0 = 33 := by
    decide
  have h2 : parseHexDigits (("0000000000002" : String).toList.take 13) 0 = 2 := by
    decide
  have hq : (100 * (2 ^ 52 - 2)) / (2 ^ 52 - 1) = 99 := by decide
  have e1 : getBustMultiplier ("0000000000021") = 1 := by
    simp only [getBustMultiplier]
    rw [h33]
    norm_num
  have e2 : getBustMultiplier ("0000000000002") = 99 / 100 := by
    simp only [getBustMultiplier]
    rw [h2]
    norm_num [hq]
  refine ⟨e1, e2, ?_, ?_⟩
  · rw [e1]; norm_num
  · rw [e2]; norm_num

/-- C2: for every hash string whose first 13 hex characters parse to
`h < 2 ^ 52`, `getBustMultiplier` returns at most 1.00; it returns
exactly 1.0 when `h % 33 = 0`, and otherwise
`floor((100 * (2 ^ 52 - h)) / (2 ^ 52 - 1)) / 100`, which is at most
1.00 for every `h ≥ 1`.  Hence every derived crash point is at or below
the live multiplier's 1.0 starting value. -/
theorem getBustMultiplier_le_one (hash : String) (h : ℕ)
    (hparse : h = parseHexDigits (hash.toList.take 13) 0)
    (hbound : h < 2 ^ 52) :
    getBustMultiplier hash ≤ 1
    ∧ (h % 33 = 0 → getBustMultiplier hash = 1)
    ∧ (h % 33 ≠ 0 →
        getBustMultiplier hash
            = (((100 * (2 ^ 52 - h)) / (2 ^ 52 - 1) : ℕ) : ℚ) / 100
          ∧ (((100 * (2 ^ 52 - h)) / (2 ^ 52 - 1) : ℕ) : ℚ) / 100 ≤ 1) := by
  have hdef : getBustMultiplier hash
      = if h % 33 = 0 then (1 : ℚ)
        else (((100 * (2 ^ 52 - h)) / (2 ^ 52 - 1) : ℕ) : ℚ) / 100 := by
    simp only [getBustMultiplier]
    rw [← hparse]
  by_cases hm : h % 33 = 0
  · rw [hdef, if_pos hm]
    exact ⟨le_refl 1, fun _ => rfl, fun hc => absurd hm hc⟩
  · have h1 : 1 ≤ h := by
      rcases Nat.eq_zero_or_pos h with h0 | h0
      · exact absurd (by simp [h0]) hm
      · exact h0
    have hq : (100 * (2 ^ 52 - h)) / (2 ^ 52 - 1) ≤ 100 := by
      have hle : 100 * (2 ^ 52 - h) ≤ 100 * (2 ^ 52 - 1) :=
        Nat.mul_le_mul_left 100 (Nat.sub_le_sub_left h1 (2 ^ 52))
      calc (100 * (2 ^ 52 - h)) / (2 ^ 52 - 1)
          ≤ (100 * (2 ^ 52 - 1)) / (2 ^ 52 - 1) := Nat.div_le_div_right hle
        _ = 100 := by decide
    have hdiv : (((100 * (2 ^ 52 - h)) / (2 ^ 52 - 1) : ℕ) : ℚ) / 100 ≤ 1 := by
      rw [div_le_one (by norm_num : (0 : ℚ) < 100)]
      exact_mod_cast hq
    rw [hdef, if_neg hm]
    exact ⟨hdiv, fun hc => absurd hc hm, fun _ => ⟨rfl, hdiv⟩⟩

/-- C2 witness: the theorem applied at the concrete hash
`0000000000002`, whose first 13 hex characters parse to `h = 2`. -/
theorem getBustMultiplier_le_one_witness :
    ((2 : ℕ) = parseHexDigits (("0000000000002" : String).toList.take 13) 0
      ∧ (2 : ℕ) < 2 ^ 52)
    ∧ getBustMultiplier ("0000000000002") ≤ 1 :=
  ⟨⟨by decide, by decide⟩,
    (getBustMultiplier_le_one ("0000000000002") 2 (by decide) (by decide)).1⟩

/-- C3 (code evaluation at the failing input): `handleBet` performs no
duplicate-bet check, so a second 100 USD bet by wallet `w` — whose
first bet is already recorded in the round — is *accepted*: it replies
`BET_PLACED`, the round then records two bets, and the balance is
decremented a second time to 800, contradicting the claimed rejection
with an "already has an active bet" reason. -/
theorem second_bet_accepted :
    (handleBet allOk ("w") 100 ("USD") sW1).reply
        = some (Msg.BET_PLACED ("w") 100 ("USD"))
    ∧ ((findLatestRound (handleBet allOk ("w") 100 ("USD") sW1).state.rounds).map
        (fun r => r.bets.length)) = some 2
    ∧ ((findUser (handleBet allOk ("w") 100 ("USD") sW1).state.users ("w")).map
        (fun u => u.balances ("USD"))) = some (some 800) := by
  refine ⟨?_, ?_, ?_⟩ <;>
    norm_num [sW1, handleBet, allOk, sW, userW, balW, round0, findUser, jsLt, jsSub,
      findLatestRound, latestFrom, saveUser, saveRound, setBalance, List.find?]

/-- C4 (code evaluation at the failing input): when `user.save()`
succeeds but `round.save()` throws, `handleBet` leaves the balance
decremented to 900 while the round records no bet at all — the two
effects of an accepted placement are not atomic (and the request gets
no reply, the error being only logged). -/
theorem bet_not_atomic_on_store_failure :
    (handleBet ioNoRoundSave ("w") 100 ("USD") sW).reply = none
    ∧ ((findUser (handleBet ioNoRoundSave ("w") 100 ("USD") sW).state.users ("w")).map
        (fun u => u.balances ("USD"))) = some (some 900)
    ∧ ((findLatestRound (handleBet ioNoRoundSave ("w") 100 ("USD") sW).state.rounds).map
        (fun r => r.bets.length)) = some 0 := by
  refine ⟨?_, ?_, ?_⟩ <;>
    norm_num [handleBet, ioNoRoundSave, sW, userW, balW, round0, findUser, jsLt, jsSub,
      findLatestRound, latestFrom, saveUser, setBalance, List.find?]

/-- C5 counterexample: `handleBet` never validates `amount > 0`.
Starting from the pre-round balance `{ USD: 0 }`, the bet of `-0.001`
USD is accepted (the insufficient-balance check `0 < -0.001` is false),
and its cashout at the live multiplier 1.0 is accepted with winnings
`floor(-0.001 * 1 * 100) / 100 = -0.01`; the wallet's balance after the
accepted bet and accepted cashout is `-0.009 USD`, which is negative. -/
theorem negative_balance_reachable :
    (handleBet allOk ("z") (-(1 / 1000)) ("USD") sZ).reply
        = some (Msg.BET_PLACED ("z") (-(1 / 1000)) ("USD"))
    ∧ (handleCashout allOk ("z") sZrun).reply
        = some (Msg.CASHOUT_SUCCESS ("z") (-(1 / 100)) 1)
    ∧ ((findUser (handleCashout allOk ("z") sZrun).state.users ("z")).map
        (fun u => u.balances ("USD"))) = some (some (-(9 / 1000)))
    ∧ (-(9 / 1000) : ℚ) < 0 := by
  refine ⟨?_, ?_, ?_, by norm_num⟩ <;>
    norm_num [sZrun, handleCashout, handleBet, allOk, sZ, userZ, balZ, round0,
      findUser, jsLt, jsSub, jsAdd, findLatestRound, latestFrom, saveUser, saveRound,
      setBalance, setCashedOutFirst, List.find?, Int.floor_eq_iff]

/-- C7 counterexample: the round's `crashMultiplier` is set to the
seed-derived crash point 0.99 at the running transition, but `endGame`
then *overwrites* it with the live `currentMultiplier` (1.00, the first
tick value `parseFloat((2 ^ 0.005).toFixed(2))`), so the field does
change after being set — the stored value no longer equals the
seed-derived one. -/
theorem crashMultiplier_overwritten_at_crash :
    ((findRoundById sR1.rounds 0).map (fun r => r.crashMultiplier)) = some (99 / 100)
    ∧ ((findRoundById sR2.rounds 0).map (fun r => r.crashMultiplier)) = some 1
    ∧ (99 / 100 : ℚ) ≠ 1 := by
  have h2 : parseHexDigits (("0000000000002" : String).toList.take 13) 0 = 2 := by
    decide
  have hq : (100 * (2 ^ 52 - 2)) / (2 ^ 52 - 1) = 99 := by decide
  have hbm : getBustMultiplier ("0000000000002") = 99 / 100 := by
    simp only [getBustMultiplier]
    rw [h2]
    norm_num [hq]
  refine ⟨?_, ?_, by norm_num⟩
  · norm_num [sR1, startRunning, sR, round0, findRoundById, saveRound,
      getRoundHash, hash2Fn, hbm, List.find?]
  · norm_num [sR2, endGame, sR1, startRunning, sR, round0, findRoundById, saveRound,
      getRoundHash, hash2Fn, List.find?]

/-- C10 counterexample: a bet request during which `User.findOne`
throws a transient store error, and a cashout request during which
`GameRound.findOne` throws, both terminate with *no* response — the
`catch` blocks only log — contradicting the claim that every request
receives `BET_PLACED`/`CASHOUT_SUCCESS` or an `ERROR` even on a store
error. -/
theorem request_dropped_on_store_error :
    (handleBet ioNoUserFind ("w") 100 ("USD") sW).reply = none
    ∧ (handleCashout ioNoRoundFind ("w") sRunW).reply = none := by
  constructor
  · norm_num [handleBet, ioNoUserFind, sW]
  · norm_num [handleCashout, ioNoRoundFind, sRunW, sW]

/-- The round kept by the `latestFrom` fold is one of its inputs. -/
theorem latestFrom_mem (a : GameRound) (l : List GameRound) :
    latestFrom a l ∈ a :: l := by
  induction l generalizing a with
  | nil => simp [latestFrom]
  | cons r rs ih =>
    have h := ih (if a.startTime < r.startTime then r else a)
    simp only [latestFrom]
    rcases List.mem_cons.mp h with h1 | h1
    · rw [h1]
      by_cases hc : a.startTime < r.startTime
      · simp [hc]
      · simp [hc]
    · exact List.mem_cons_of_mem a (List.mem_cons_of_mem r h1)

/-- `findLatestRound` returns a stored round. -/
theorem findLatestRound_mem (rounds : List GameRound) (r : GameRound)
    (h : findLatestRound rounds = some r) : r ∈ rounds := by
  cases rounds with
  | nil => simp [findLatestRound] at h
  | cons x xs =>
    have h' : latestFrom x xs = r := by
      simpa [findLatestRound] using h
    rw [← h']
    exact latestFrom_mem x xs

/-- `latestFrom` commutes with a map that preserves `startTime` on the
inputs. -/
theorem latestFrom_map (f : GameRound → GameRound) (a : GameRound) (l : List GameRound)
    (hpt : ∀ x ∈ a :: l, (f x).startTime = x.startTime) :
    latestFrom (f a) (l.map f) = f (latestFrom a l) := by
  induction l generalizing a with
  | nil => simp [latestFrom]
  | cons r rs ih =>
    have ha : (f a).startTime = a.startTime := hpt a (by simp)
    have hr : (f r).startTime = r.startTime := hpt r (by simp)
    simp only [List.map_cons, latestFrom, ha, hr]
    have hite : (if a.startTime < r.startTime then f r else f a)
        = f (if a.startTime < r.startTime then r else a) := by
      by_cases hc : a.startTime < r.startTime
      · simp [hc]
      · simp [hc]
    rw [hite]
    apply ih
    intro x hx
    rcases List.mem_cons.mp hx with h1 | h1
    · by_cases hc : a.startTime < r.startTime
      · rw [h1, if_pos hc]
        exact hpt r (by simp)
      · rw [h1, if_neg hc]
        exact hpt a (by simp)
    · exact hpt x (List.mem_cons_of_mem a (List.mem_cons_of_mem r h1))

/-- `findLatestRound` commutes with a map that preserves `startTime`. -/
theorem findLatestRound_map (f : GameRound → GameRound) (rounds : List GameRound)
    (hpt : ∀ x ∈ rounds, (f x).startTime = x.startTime) :
    findLatestRound (rounds.map f) = (findLatestRound rounds).map f := by
  cases rounds with
  | nil => simp [findLatestRound]
  | cons x xs =>
    simp only [List.map_cons, findLatestRound, Option.map_some']
    exact congrArg some (latestFrom_map f x xs hpt)

/-- Rounds with pairwise distinct stored ids are determined by their
id. -/
theorem round_id_inj (rounds : List GameRound)
    (hnd : (rounds.map (fun x => x.id)).Nodup) :
    ∀ x ∈ rounds, ∀ y ∈ rounds, x.id = y.id → x = y := by
  intro x hx y hy hxy
  exact List.inj_on_of_nodup_map hnd hx hy hxy

/-- Saving an updated copy of the latest round (same id and
`startTime`) makes it the latest round of the store. -/
theorem findLatestRound_saveRound (rounds : List GameRound) (r r' : GameRound)
    (hnd : (rounds.map (fun x => x.id)).Nodup)
    (hfind : findLatestRound rounds = some r)
    (hid : r'.id = r.id) (hst : r'.startTime = r.startTime) :
    findLatestRound (saveRound rounds r') = some r' := by
  have hr : r ∈ rounds := findLatestRound_mem rounds r hfind
  have hpt : ∀ x ∈ rounds,
      ((fun x => if x.id == r'.id then r' else x) x).startTime = x.startTime := by
    intro x hx
    by_cases hxe : x.id = r'.id
    · have hxr : x = r := round_id_inj rounds hnd x hx r hr (by rw [hxe, hid])
      simp [hxe, hst, hxr, hid]
    · simp [hxe]
  have hcomm := findLatestRound_map (fun x => if x.id == r'.id then r' else x) rounds hpt
  unfold saveRound
  rw [hcomm, hfind]
  simp [hid]

/-- The round returned by `findRoundById` carries the queried id. -/
theorem findRoundById_eq_some_id (rounds : List GameRound) (r : GameRound) (i : ℕ)
    (hf : findRoundById rounds i = some r) : r.id = i := by
  unfold findRoundById at hf
  simpa using List.find?_some hf

/-- After saving an updated copy `r'` of the round found by id, the
lookup returns `r'`. -/
theorem findRoundById_saveRound (rounds : List GameRound) (r r' : GameRound) (i : ℕ)
    (hf : findRoundById rounds i = some r) (hid : r'.id = r.id) :
    findRoundById (saveRound rounds r') i = some r' := by
  have hri : r.id = i := findRoundById_eq_some_id rounds r i hf
  have hr'i : r'.id = i := by rw [hid, hri]
  revert hf
  induction rounds with
  | nil =>
    intro hf
    simp [findRoundById, List.find?] at hf
  | cons x xs ih =>
    intro hf
    by_cases hx : x.id = i
    · have hxid : x.id = r'.id := by rw [hx, hr'i]
      have hsave : saveRound (x :: xs) r' = r' :: saveRound xs r' := by
        simp [saveRound, hxid]
      rw [hsave]
      unfold findRoundById
      exact List.find?_cons_of_pos _ (by simp [hr'i])
    · have hxid : ¬ (x.id = r'.id) := by rw [hr'i]; exact hx
      have hsave : saveRound (x :: xs) r' = x :: saveRound xs r' := by
        simp [saveRound, hxid]
      rw [hsave]
      have hstep : findRoundById (x :: saveRound xs r') i
          = findRoundById (saveRound xs r') i := by
        unfold findRoundById
        exact List.find?_cons_of_neg _ (by simp [hx])
      rw [hstep]
      refine ih ?_
      unfold findRoundById at hf ⊢
      rwa [List.find?_cons_of_neg _ (by simp [hx])] at hf

/-- Saving a round does not affect lookups of other ids. -/
theorem findRoundById_saveRound_other (rounds : List GameRound) (r' : GameRound) (i : ℕ)
    (hne : ¬ (r'.id = i)) :
    findRoundById (saveRound rounds r') i = findRoundById rounds i := by
  induction rounds with
  | nil => rfl
  | cons x xs ih =>
    by_cases hx : x.id = r'.id
    · have hxi : ¬ (x.id = i) := by rw [hx]; exact hne
      have hsave : saveRound (x :: xs) r' = r' :: saveRound xs r' := by
        simp [saveRound, hx]
      rw [hsave]
      unfold findRoundById
      rw [List.find?_cons_of_neg _ (by simp [hne]), List.find?_cons_of_neg _ (by simp [hxi])]
      exact ih
    · have hsave : saveRound (x :: xs) r' = x :: saveRound xs r' := by
        simp [saveRound, hx]
      rw [hsave]
      unfold findRoundById
      by_cases hxi : x.id = i
      · rw [List.find?_cons_of_pos _ (by simp [hxi]), List.find?_cons_of_pos _ (by simp [hxi])]
      · rw [List.find?_cons_of_neg _ (by simp [hxi]), List.find?_cons_of_neg _ (by simp [hxi])]
        exact ih

/-- Flipping the found bet's `cashedOut` flag in place: the wallet's
lookup afterwards returns the flagged bet. -/
theorem find?_setCashedOutFirst (bets : List Bet) (w : String) (bet : Bet)
    (h : bets.find? (fun b => b.walletAddress == w) = some bet) :
    (setCashedOutFirst bets w).find? (fun b => b.walletAddress == w)
      = some { bet with cashedOut := true } := by
  induction bets with
  | nil => simp [List.find?] at h
  | cons b bs ih =>
    by_cases hb : b.walletAddress = w
    · have hbet : b = bet := by
        rw [List.find?_cons_of_pos _ (by simp [hb])] at h
        exact Option.some.inj h
      subst hbet
      have hset : setCashedOutFirst (b :: bs) w = { b with cashedOut := true } :: bs := by
        simp [setCashedOutFirst, hb]
      rw [hset]
      exact List.find?_cons_of_pos _ (by simp [hb])
    · rw [List.find?_cons_of_neg _ (by simp [hb])] at h
      have hset : setCashedOutFirst (b :: bs) w = b :: setCashedOutFirst bs w := by
        simp [setCashedOutFirst, hb]
      rw [hset]
      rw [List.find?_cons_of_neg _ (by simp [hb])]
      exact ih h

/-- The seed-reveal write only flips a `revealed` flag: every resulting
document keeps the seed and hash of a stored document. -/
theorem revealFirstUnrevealed_fields (seeds : List SeedDoc) :
    ∀ d ∈ revealFirstUnrevealed seeds, ∃ d0 ∈ seeds,
      d.serverSeed = d0.serverSeed ∧ d.serverSeedHash = d0.serverSeedHash := by
  induction seeds with
  | nil => simp [revealFirstUnrevealed]
  | cons x xs ih =>
    cases hx : x.revealed
    · intro d hd
      rw [show revealFirstUnrevealed (x :: xs) = { x with revealed := true } :: xs from by
        simp [revealFirstUnrevealed, hx]] at hd
      rcases List.mem_cons.mp hd with h1 | h1
      · exact ⟨x, by simp, by rw [h1], by rw [h1]⟩
      · exact ⟨d, List.mem_cons_of_mem x h1, rfl, rfl⟩
    · intro d hd
      rw [show revealFirstUnrevealed (x :: xs) = x :: revealFirstUnrevealed xs from by
        simp [revealFirstUnrevealed, hx]] at hd
      rcases List.mem_cons.mp hd with h1 | h1
      · exact ⟨x, by simp, by rw [h1], by rw [h1]⟩
      · rcases ih d h1 with ⟨d0, hd0, he⟩
        exact ⟨d0, List.mem_cons_of_mem x hd0, he⟩

/-- An already-revealed commitment is untouched by the seed-reveal
write (it only targets the first document with `revealed = false`). -/
theorem mem_revealFirstUnrevealed_of_revealed (seeds : List SeedDoc) (d : SeedDoc)
    (hd : d ∈ seeds) (hr : d.revealed = true) :
    d ∈ revealFirstUnrevealed seeds := by
  induction seeds with
  | nil => simp at hd
  | cons x xs ih =>
    cases hx : x.revealed
    · have hne : d ≠ x := by
        intro he
        rw [he, hx] at hr
        exact absurd hr (by decide)
      have hdxs : d ∈ xs := by
        rcases List.mem_cons.mp hd with h1 | h1
        · exact absurd h1 hne
        · exact h1
      rw [show revealFirstUnrevealed (x :: xs) = { x with revealed := true } :: xs from by
        simp [revealFirstUnrevealed, hx]]
      exact List.mem_cons_of_mem _ hdxs
    · rw [show revealFirstUnrevealed (x :: xs) = x :: revealFirstUnrevealed xs from by
        simp [revealFirstUnrevealed, hx]]
      rcases List.mem_cons.mp hd with h1 | h1
      · rw [h1]
        exact List.mem_cons_self x _
      · exact List.mem_cons_of_mem x (ih h1)

/-- Branch analysis of `handleBet`: either the durable user collection
is untouched, or the found user's balance entry was decremented after
the insufficient-balance check returned false. -/
theorem handleBet_users_cases (io : StoreFlags) (w : String) (a : ℚ) (c : String)
    (s : EngineState) :
    (handleBet io w a c s).state.users = s.users ∨
    ∃ user, findUser s.users w = some user
      ∧ jsLt (user.balances c) a = false
      ∧ (handleBet io w a c s).state.users = saveUser s.users
          { user with balances := (setBalance user.balances c (jsSub (user.balances c) a)) } := by
  unfold handleBet
  split
  · exact Or.inl rfl
  · split
    · exact Or.inl rfl
    · split
      · exact Or.inl rfl
      · rename_i user huser
        split
        · exact Or.inl rfl
        · rename_i hlt
          split
          · exact Or.inl rfl
          · split
            · exact Or.inl rfl
            · split
              · exact Or.inl rfl
              · split
                · exact Or.inr ⟨user, huser, by simpa using hlt, rfl⟩
                · exact Or.inr ⟨user, huser, by simpa using hlt, rfl⟩

/-- Branch analysis of `handleCashout`: either the durable user
collection is untouched, or the found user's balance entry for the
found bet's currency was credited with the floored winnings. -/
theorem handleCashout_users_cases (io : StoreFlags) (w : String) (s : EngineState) :
    (handleCashout io w s).state.users = s.users ∨
    ∃ round bet user, findLatestRound s.rounds = some round
      ∧ round.bets.find? (fun b => b.walletAddress == w) = some bet
      ∧ findUser s.users w = some user
      ∧ (handleCashout io w s).state.users = saveUser s.users
          { user with balances := (setBalance user.balances bet.currency
              (jsAdd (user.balances bet.currency)
                (((⌊bet.amount * s.currentMultiplier * 100⌋ : ℤ) : ℚ) / 100))) } := by
  unfold handleCashout
  split
  · exact Or.inl rfl
  · split
    · exact Or.inl rfl
    · split
      · exact Or.inl rfl
      · rename_i round hround
        split
        · exact Or.inl rfl
        · rename_i bet hbet
          split
          · exact Or.inl rfl
          · split
            · exact Or.inl rfl
            · split
              · exact Or.inl rfl
              · rename_i user huser
                split
                · exact Or.inl rfl
                · split
                  · exact Or.inr ⟨round, bet, user, hround, hbet, huser, rfl⟩
                  · exact Or.inr ⟨round, bet, user, hround, hbet, huser, rfl⟩

/-- C8: bets are accepted only in the `waiting` phase and cashouts only
while `isRunning` (the live running-phase window); a bet request in any
other phase is rejected with "Betting closed." and a cashout request
outside the running window with "Cannot cash out now.", both leaving
the engine state — balances and the round's bet list included —
completely unchanged. -/
theorem phase_gating :
    (∀ io w a c s, s.gameState ≠ "waiting" →
        handleBet io w a c s = ⟨some (Msg.ERROR ("Betting closed.")), [], s⟩)
    ∧ (∀ io w s, s.isRunning = false →
        handleCashout io w s = ⟨some (Msg.ERROR ("Cannot cash out now.")), [], s⟩)
    ∧ (∀ io w a c s, (handleBet io w a c s).reply = some (Msg.BET_PLACED w a c) →
        s.gameState = "waiting")
    ∧ (∀ io w s win m, (handleCashout io w s).reply = some (Msg.CASHOUT_SUCCESS w win m) →
        s.isRunning = true) := by
  refine ⟨?_, ?_, ?_, ?_⟩
  · intro io w a c s h
    simp [handleBet, h]
  · intro io w s h
    simp [handleCashout, h]
  · intro io w a c s hrep
    by_cases hg : s.gameState = "waiting"
    · exact hg
    · simp [handleBet, hg] at hrep
  · intro io w s win m hrep
    cases hb : s.isRunning
    · simp [handleCashout, hb] at hrep
    · rfl

/-- C8 witness: a bet request in the running phase and a cashout
request in the waiting phase are both rejected with the engine state
unchanged. -/
theorem phase_gating_witness :
    handleBet allOk ("w") 100 ("USD") sRunW
        = ⟨some (Msg.ERROR ("Betting closed.")), [], sRunW⟩
    ∧ handleCashout allOk ("w") sW
        = ⟨some (Msg.ERROR ("Cannot cash out now.")), [], sW⟩ :=
  ⟨phase_gating.1 allOk ("w") 100 ("USD") sRunW (by decide),
    phase_gating.2.1 allOk ("w") sW (by decide)⟩

/-- C10 (amended): when every store operation succeeds, `handleBet`
always sends a direct reply (`BET_PLACED` or an `ERROR`), and
`handleCashout` always sends a direct reply (`CASHOUT_SUCCESS` or an
`ERROR`) provided the latest round and the wallet's user record exist;
the unanswered cases are exactly the swallowed store errors and the
missing round/user dereferences exhibited by the counterexample. -/
theorem requests_answered_amended :
    (∀ w a c s, (handleBet allOk w a c s).reply.isSome = true)
    ∧ (∀ w s round, s.isRunning = true → findLatestRound s.rounds = some round →
        (findUser s.users w).isSome = true →
        (handleCashout allOk w s).reply.isSome = true) := by
  constructor
  · intro w a c s
    unfold handleBet
    split
    · rfl
    · split
      · simp [allOk] at *
      · split
        · rfl
        · split
          · rfl
          · split
            · simp [allOk] at *
            · split
              · rfl
              · split
                · simp [allOk] at *
                · split
                  · simp [allOk] at *
                  · rfl
  · intro w s round hrun hround huser
    rcases Option.isSome_iff_exists.mp huser with ⟨user, hu⟩
    unfold handleCashout
    rw [hrun, hround, hu]
    simp only [allOk]
    split
    · simp at *
    · split
      · rfl
      · split
        · rfl
        · rfl

/-- C10 (amended) witness: the theorem applied to the concrete waiting
state `sW` (bet) and running state `sCash` (cashout), where the latest
round and the user record exist and every store operation succeeds. -/
theorem requests_answered_amended_witness :
    (handleBet allOk ("w") 100 ("USD") sW).reply.isSome = true
    ∧ (handleCashout allOk ("w") sCash).reply.isSome = true :=
  ⟨requests_answered_amended.1 ("w") 100 ("USD") sW,
    requests_answered_amended.2 ("w") sCash roundBet rfl rfl (by decide)⟩

/-- Branch analysis of `handleCashout` on the round store: either it is
untouched, or the latest round was saved back with the wallet's first
bet flagged `cashedOut`. -/
theorem handleCashout_rounds_cases (io : StoreFlags) (w : String) (s : EngineState) :
    (handleCashout io w s).state.rounds = s.rounds ∨
    ∃ round, findLatestRound s.rounds = some round
      ∧ (handleCashout io w s).state.rounds
          = saveRound s.rounds { round with bets := setCashedOutFirst round.bets w } := by
  unfold handleCashout
  split
  · exact Or.inl rfl
  · split
    · exact Or.inl rfl
    · split
      · exact Or.inl rfl
      · rename_i round hround
        split
        · exact Or.inl rfl
        · split
          · exact Or.inl rfl
          · split
            · exact Or.inl rfl
            · split
              · exact Or.inl rfl
              · split
                · exact Or.inl rfl
                · split
                  · exact Or.inl rfl
                  · exact Or.inr ⟨round, hround, rfl⟩

/-- C6: at most one cashout ever succeeds per bet.  (1) Whenever the
wallet's bet in the latest round is already flagged `cashedOut`, a
cashout request is rejected with "Already cashed out." and the whole
engine state — every balance included — is unchanged.  (2) After a
successful cashout (all store operations succeeding, round ids
distinct), the immediately repeated cashout request of the same wallet
is rejected with "Already cashed out." and changes nothing. -/
theorem cashout_at_most_once :
    (∀ io w s round bet,
        s.isRunning = true →
        io.findRoundOk = true →
        findLatestRound s.rounds = some round →
        round.bets.find? (fun b => b.walletAddress == w) = some bet →
        bet.cashedOut = true →
        handleCashout io w s = ⟨some (Msg.ERROR ("Already cashed out.")), [], s⟩)
    ∧ (∀ w s w' win m,
        (s.rounds.map (fun x => x.id)).Nodup →
        (handleCashout allOk w s).reply = some (Msg.CASHOUT_SUCCESS w' win m) →
        (handleCashout allOk w ((handleCashout allOk w s).state)).reply
            = some (Msg.ERROR ("Already cashed out."))
        ∧ (handleCashout allOk w ((handleCashout allOk w s).state)).state
            = (handleCashout allOk w s).state) := by
  constructor
  · intro io w s round bet hrun hio hround hbet hflag
    simp [handleCashout, hrun, hio, hround, hbet, hflag]
  · intro w s w' win m hnd hsucc
    unfold handleCashout at hsucc
    simp only [allOk] at hsucc
    by_cases hniso : s.isRunning = false
    · rw [if_pos hniso] at hsucc
      simp at hsucc
    · rw [if_neg hniso] at hsucc
      cases hround : findLatestRound s.rounds with
      | none => simp [hround] at hsucc
      | some round =>
        simp only [hround] at hsucc
        cases hbet : round.bets.find? (fun b => b.walletAddress == w) with
        | none => simp [hbet] at hsucc
        | some bet =>
          simp only [hbet] at hsucc
          by_cases hflag : bet.cashedOut = true
          · rw [if_pos hflag] at hsucc
            simp at hsucc
          · rw [if_neg hflag] at hsucc
            cases huser : findUser s.users w with
            | none => simp [huser] at hsucc
            | some user =>
              have hrun : s.isRunning = true := by
                cases hb : s.isRunning
                · exact absurd hb hniso
                · rfl
              have hflag' : bet.cashedOut = false := by
                cases hb : bet.cashedOut
                · rfl
                · exact absurd hb hflag
              have hstate : (handleCashout allOk w s).state
                  = { s with
                      users := (saveUser s.users
                        { user with balances := (setBalance user.balances bet.currency
                            (jsAdd (user.balances bet.currency)
                              (((⌊bet.amount * s.currentMultiplier * 100⌋ : ℤ) : ℚ) / 100))) }),
                      rounds := (saveRound s.rounds
                        { round with bets := setCashedOutFirst round.bets w }) } := by
                simp [handleCashout, allOk, hniso, hround, hbet, hflag', huser]
              have hlatest2 : findLatestRound (saveRound s.rounds
                    { round with bets := setCashedOutFirst round.bets w })
                  = some { round with bets := setCashedOutFirst round.bets w } :=
                findLatestRound_saveRound s.rounds round
                  { round with bets := setCashedOutFirst round.bets w } hnd hround rfl rfl
              have hfind2 : ({ round with bets := setCashedOutFirst round.bets w }).bets.find?
                    (fun b => b.walletAddress == w) = some { bet with cashedOut := true } :=
                find?_setCashedOutFirst round.bets w bet hbet
              rw [hstate]
              constructor
              · simp [handleCashout, allOk, hrun, hlatest2, hfind2]
              · simp [handleCashout, allOk, hrun, hlatest2, hfind2]

/-- C6 witness: in `sFlagged` (bet already cashed out) the request is
rejected with state unchanged, and after the successful cashout in
`sCash` the repeated request is rejected. -/
theorem cashout_at_most_once_witness :
    handleCashout allOk ("w") sFlagged
        = ⟨some (Msg.ERROR ("Already cashed out.")), [], sFlagged⟩
    ∧ (handleCashout allOk ("w") ((handleCashout allOk ("w") sCash).state)).reply
        = some (Msg.ERROR ("Already cashed out.")) := by
  constructor
  · exact cashout_at_most_once.1 allOk ("w") sFlagged roundF betF rfl rfl rfl
      (by decide) rfl
  · refine (cashout_at_most_once.2 ("w") sCash ("w") 100 1 (by decide) ?_).1
    norm_num [handleCashout, allOk, sCash, roundBet, betW, userW, balW, findUser,
      findLatestRound, latestFrom, jsAdd, setBalance, saveUser, saveRound,
      setCashedOutFirst, List.find?]

/-- C7 (amended): the round's `crashMultiplier` is set at the running
transition to the crash point derived from the server seed, the fixed
client seed, and the nonce (`countDocuments()`); multiplier ticks never
touch the round store, and a cashout rewrites a round without changing
any round's `crashMultiplier`; but `endGame` *overwrites* the field of
the crashed round with the live `currentMultiplier` at crash time. -/
theorem crashMultiplier_lifecycle :
    (∀ hashFn serverSeed roundId s round,
        findRoundById s.rounds roundId = some round →
        ((findRoundById (startRunning hashFn serverSeed roundId s).rounds roundId).map
            (fun r => r.crashMultiplier))
          = some (getBustMultiplier (getRoundHash hashFn serverSeed ("global_client_seed")
              s.rounds.length)))
    ∧ (∀ m s, (tick m s).rounds = s.rounds)
    ∧ (∀ io w s i r, (s.rounds.map (fun x => x.id)).Nodup →
        findRoundById s.rounds i = some r →
        ((findRoundById (handleCashout io w s).state.rounds i).map
            (fun x => x.crashMultiplier)) = some r.crashMultiplier)
    ∧ (∀ roundId s round, findRoundById s.rounds roundId = some round →
        ((findRoundById (endGame roundId s).state.rounds roundId).map
            (fun x => x.crashMultiplier)) = some s.currentMultiplier) := by
  refine ⟨?_, ?_, ?_, ?_⟩
  · intro hashFn serverSeed roundId s round hfound
    have h0 : findRoundById ({ s with gameState := ("running"), isRunning := true }
        : EngineState).rounds roundId = some round := hfound
    unfold startRunning
    simp only [h0]
    rw [findRoundById_saveRound s.rounds round
      { round with
          crashMultiplier := (getBustMultiplier (getRoundHash hashFn serverSeed
            ("global_client_seed") s.rounds.length)),
          roundHash := (getRoundHash hashFn serverSeed ("global_client_seed")
            s.rounds.length) }
      roundId hfound rfl]
    rfl
  · intro m s
    rfl
  · intro io w s i r hnd hf
    rcases handleCashout_rounds_cases io w s with hc | ⟨round, hround, hc⟩
    · rw [hc, hf]
      rfl
    · rw [hc]
      have hrmem : r ∈ s.rounds := by
        unfold findRoundById at hf
        exact List.mem_of_find?_eq_some hf
      have hroundmem : round ∈ s.rounds := findLatestRound_mem s.rounds round hround
      have hri : r.id = i := findRoundById_eq_some_id s.rounds r i hf
      by_cases hi : round.id = i
      · have hreq : round = r :=
          round_id_inj s.rounds hnd round hroundmem r hrmem (by rw [hi, hri])
        rw [findRoundById_saveRound s.rounds r
          { round with bets := setCashedOutFirst round.bets w } i hf
          (by rw [← hreq])]
        rw [← hreq]
        rfl
      · rw [findRoundById_saveRound_other s.rounds
          { round with bets := setCashedOutFirst round.bets w } i hi, hf]
        rfl
  · intro roundId s round hfound
    unfold endGame
    simp only [hfound]
    have hsave := findRoundById_saveRound s.rounds round
      { round with crashMultiplier := s.currentMultiplier } roundId hfound rfl
    split
    · split
      · simp [hsave]
      · simp [hsave]
    · simp [hsave]

/-- C7 (amended) witness: the theorem instantiated at the concrete
states `sR`/`sCash`: the running transition stores the seed-derived
crash point, a cashout leaves `crashMultiplier` intact, and `endGame`
stores the live multiplier. -/
theorem crashMultiplier_lifecycle_witness :
    ((findRoundById (startRunning hash2Fn ("seedA") 0 sR).rounds 0).map
        (fun r => r.crashMultiplier))
      = some (getBustMultiplier (getRoundHash hash2Fn ("seedA") ("global_client_seed")
          sR.rounds.length))
    ∧ ((findRoundById (handleCashout allOk ("w") sCash).state.rounds 0).map
        (fun x => x.crashMultiplier)) = some roundBet.crashMultiplier
    ∧ ((findRoundById (endGame 0 sR).state.rounds 0).map
        (fun x => x.crashMultiplier)) = some sR.currentMultiplier :=
  ⟨crashMultiplier_lifecycle.1 hash2Fn ("seedA") 0 sR round0 rfl,
    crashMultiplier_lifecycle.2.2.1 allOk ("w") sCash 0 roundBet (by decide) rfl,
    crashMultiplier_lifecycle.2.2.2 0 sR round0 rfl⟩

/-- C9: after a round ends, the reveal fires exactly when
`countDocuments() % 100 == 0` (the round count is unchanged by the
crash write): outside the cadence the seed store and broadcast carry no
reveal; on the cadence the current unrevealed commitment is marked
revealed and broadcast; already-revealed commitments are never touched
again; and every stored or broadcast commitment hash equals `hashFn` of
its seed, `ensureSeed` creating only commitments satisfying that
invariant. -/
theorem seed_reveal_cadence (hashFn : String → String) (s : EngineState)
    (roundId : ℕ) (round : GameRound)
    (hfound : findRoundById s.rounds roundId = some round)
    (hinv : ∀ d ∈ s.seeds, d.serverSeedHash = hashFn d.serverSeed) :
    (∀ d ∈ (endGame roundId s).state.seeds, d.serverSeedHash = hashFn d.serverSeed)
    ∧ (∀ ss hh, Msg.SEED_REVEALED ss hh ∈ (endGame roundId s).broadcasts → hh = hashFn ss)
    ∧ (s.rounds.length % 100 ≠ 0 →
        (endGame roundId s).state.seeds = s.seeds
        ∧ ∀ ss hh, Msg.SEED_REVEALED ss hh ∉ (endGame roundId s).broadcasts)
    ∧ (∀ d ∈ s.seeds, d.revealed = true → d ∈ (endGame roundId s).state.seeds)
    ∧ (s.rounds.length % 100 = 0 → ∀ cur,
        s.seeds.find? (fun d => d.revealed == false) = some cur →
        Msg.SEED_REVEALED cur.serverSeed cur.serverSeedHash ∈ (endGame roundId s).broadcasts
        ∧ (endGame roundId s).state.seeds = revealFirstUnrevealed s.seeds)
    ∧ (∀ seeds0 newSeed,
        (∀ d ∈ seeds0, d.serverSeedHash = hashFn d.serverSeed) →
        (ensureSeed hashFn newSeed seeds0).1.serverSeedHash
            = hashFn (ensureSeed hashFn newSeed seeds0).1.serverSeed
        ∧ ∀ d ∈ (ensureSeed hashFn newSeed seeds0).2, d.serverSeedHash = hashFn d.serverSeed) := by
  have hens : ∀ seeds0 newSeed,
      (∀ d ∈ seeds0, d.serverSeedHash = hashFn d.serverSeed) →
      (ensureSeed hashFn newSeed seeds0).1.serverSeedHash
          = hashFn (ensureSeed hashFn newSeed seeds0).1.serverSeed
      ∧ ∀ d ∈ (ensureSeed hashFn newSeed seeds0).2, d.serverSeedHash = hashFn d.serverSeed := by
    intro seeds0 newSeed hinv0
    unfold ensureSeed
    cases hfs : seeds0.find? (fun d => d.revealed == false) with
    | none =>
      refine ⟨rfl, ?_⟩
      intro d hd
      rcases List.mem_append.mp hd with h1 | h1
      · exact hinv0 d h1
      · rw [List.mem_singleton.mp h1]
    | some d0 =>
      exact ⟨hinv0 d0 (List.mem_of_find?_eq_some hfs), hinv0⟩
  have hlen : ∀ r' : GameRound, (saveRound s.rounds r').length = s.rounds.length := by
    intro r'
    simp [saveRound]
  by_cases hmod : s.rounds.length % 100 = 0
  · cases hfind : s.seeds.find? (fun d => d.revealed == false) with
    | none =>
      have hfind' : s.seeds.find? (fun d => !d.revealed) = none := by
        simpa using hfind
      have hend : endGame roundId s
          = ⟨none, [Msg.ROUND_CRASHED s.currentMultiplier],
              { s with
                  rounds := (saveRound s.rounds
                    { round with crashMultiplier := s.currentMultiplier }) }⟩ := by
        simp [endGame, hfound, hlen, hmod, hfind']
      rw [hend]
      refine ⟨hinv, ?_, fun h => absurd hmod h, fun d hd _ => hd, ?_, hens⟩
      · intro ss hh hmem
        simp at hmem
      · intro _ cur hcur
        exact Option.noConfusion hcur
    | some cur' =>
      have hcurmem : cur' ∈ s.seeds := List.mem_of_find?_eq_some hfind
      have hfind' : s.seeds.find? (fun d => !d.revealed) = some cur' := by
        simpa using hfind
      have hend : endGame roundId s
          = ⟨none, [Msg.ROUND_CRASHED s.currentMultiplier,
              Msg.SEED_REVEALED cur'.serverSeed cur'.serverSeedHash],
              { s with
                  rounds := (saveRound s.rounds
                    { round with crashMultiplier := s.currentMultiplier }),
                  seeds := (revealFirstUnrevealed s.seeds) }⟩ := by
        simp [endGame, hfound, hlen, hmod, hfind']
      rw [hend]
      refine ⟨?_, ?_, fun h => absurd hmod h, ?_, ?_, hens⟩
      · intro d hd
        rcases revealFirstUnrevealed_fields s.seeds d hd with ⟨d0, hd0, hs, hh⟩
        rw [hs, hh]
        exact hinv d0 hd0
      · intro ss hh hmem
        simp only [List.mem_cons, List.mem_singleton] at hmem
        rcases hmem with h1 | h1 | h1
        · exact Msg.noConfusion h1
        · injection h1 with h2 h3
          rw [h2, h3]
          exact hinv cur' hcurmem
        · simp at h1
      · intro d hd hr
        exact mem_revealFirstUnrevealed_of_revealed s.seeds d hd hr
      · intro _ cur hcur
        rw [← Option.some.inj hcur]
        exact ⟨by simp, rfl⟩
  · have hend : endGame roundId s
        = ⟨none, [Msg.ROUND_CRASHED s.currentMultiplier],
            { s with
                rounds := (saveRound s.rounds
                  { round with crashMultiplier := s.currentMultiplier }) }⟩ := by
      simp [endGame, hfound, hlen, hmod]
    rw [hend]
    refine ⟨hinv, ?_, fun _ => ⟨rfl, ?_⟩, fun d hd _ => hd, fun h => absurd h hmod, hens⟩
    · intro ss hh hmem
      simp at hmem
    · intro ss hh hmem
      simp at hmem

/-- A JavaScript `<` check that returned false on a numeric entry
bounds the entry from below. -/
theorem jsLt_some_false (b x : ℚ) (h : jsLt (some b) x = false) : x ≤ b := by
  unfold jsLt at h
  exact not_lt.mp (by simpa using h)

/-- Every user in the store after a `user.save()` is either the saved
document or one of the previously stored users. -/
theorem mem_saveUser (users : List User) (u' v : User) (hv : v ∈ saveUser users u') :
    v = u' ∨ v ∈ users := by
  unfold saveUser at hv
  rcases List.mem_map.mp hv with ⟨x, hx, hxv⟩
  by_cases hxw : (x.walletAddress == u'.walletAddress) = true
  · left
    rw [← hxv]
    simp [hxw]
  · right
    rw [← hxv]
    have hxe : (if x.walletAddress == u'.walletAddress then u' else x) = x := by
      rw [if_neg hxw]
    rw [hxe]
    exact hx

/-- C5 (amended): (1) `handleBet` preserves non-negativity of all
stored balances unconditionally, because its acceptance check
guarantees `balance ≥ amount` before the decrement; (2) `handleCashout`
preserves non-negativity provided the live multiplier and every
recorded bet amount are non-negative (so the floored winnings credit is
non-negative — the counterexample shows this premise is necessary,
since bet amounts are never validated); (3) an accepted bet's decrement
is never applied when it would make the balance negative: acceptance
forces `amount ≤ balance`. -/
theorem balances_nonneg_amended :
    (∀ io w a c s, (∀ u ∈ s.users, nonNegBalances u) →
        ∀ u ∈ (handleBet io w a c s).state.users, nonNegBalances u)
    ∧ (∀ io w s, 0 ≤ s.currentMultiplier →
        (∀ r ∈ s.rounds, betsNonNeg r) →
        (∀ u ∈ s.users, nonNegBalances u) →
        ∀ u ∈ (handleCashout io w s).state.users, nonNegBalances u)
    ∧ (∀ io w a c s user q,
        findUser s.users w = some user →
        user.balances c = some q →
        (handleBet io w a c s).reply = some (Msg.BET_PLACED w a c) →
        a ≤ q) := by
  refine ⟨?_, ?_, ?_⟩
  · intro io w a c s husers u hu
    rcases handleBet_users_cases io w a c s with hcase | ⟨user, huser, hlt, hcase⟩
    · rw [hcase] at hu
      exact husers u hu
    · rw [hcase] at hu
      have husermem : user ∈ s.users := by
        unfold findUser at huser
        exact List.mem_of_find?_eq_some huser
      rcases mem_saveUser s.users _ u hu with hux | hux
      · subst hux
        intro c' q' hq'
        have hq2 : setBalance user.balances c (jsSub (user.balances c) a) c'
            = some q' := hq'
        unfold setBalance at hq2
        by_cases hc' : c' = c
        · rw [if_pos hc'] at hq2
          unfold jsSub at hq2
          rcases Option.map_eq_some'.mp hq2 with ⟨b, hb, hbq⟩
          have hba : a ≤ b := by
            rw [hb] at hlt
            exact jsLt_some_false b a hlt
          rw [← hbq]
          exact sub_nonneg.mpr hba
        · rw [if_neg hc'] at hq2
          exact husers user husermem c' q' hq2
      · exact husers u hux
  · intro io w s hm hbets husers u hu
    rcases handleCashout_users_cases io w s with hcase | ⟨round, bet, user, hround, hbet, huser, hcase⟩
    · rw [hcase] at hu
      exact husers u hu
    · rw [hcase] at hu
      have husermem : user ∈ s.users := by
        unfold findUser at huser
        exact List.mem_of_find?_eq_some huser
      have hroundmem : round ∈ s.rounds := findLatestRound_mem s.rounds round hround
      have hbetmem : bet ∈ round.bets := List.mem_of_find?_eq_some hbet
      have hamt : 0 ≤ bet.amount := hbets round hroundmem bet hbetmem
      have hwin : 0 ≤ ((⌊bet.amount * s.currentMultiplier * 100⌋ : ℤ) : ℚ) / 100 := by
        apply div_nonneg _ (by norm_num)
        have hz : (0 : ℤ) ≤ ⌊bet.amount * s.currentMultiplier * 100⌋ := by
          apply Int.floor_nonneg.mpr
          have h1 : 0 ≤ bet.amount * s.currentMultiplier := mul_nonneg hamt hm
          have h2 : (0 : ℚ) ≤ 100 := by norm_num
          exact mul_nonneg h1 h2
        exact_mod_cast hz
      rcases mem_saveUser s.users _ u hu with hux | hux
      · subst hux
        intro c' q' hq'
        have hq2 : setBalance user.balances bet.currency
            (jsAdd (user.balances bet.currency)
              (((⌊bet.amount * s.currentMultiplier * 100⌋ : ℤ) : ℚ) / 100)) c'
            = some q' := hq'
        unfold setBalance at hq2
        by_cases hc' : c' = bet.currency
        · rw [if_pos hc'] at hq2
          unfold jsAdd at hq2
          rcases Option.map_eq_some'.mp hq2 with ⟨b, hb, hbq⟩
          have hb0 : 0 ≤ b := husers user husermem bet.currency b hb
          rw [← hbq]
          exact add_nonneg hb0 hwin
        · rw [if_neg hc'] at hq2
          exact husers user husermem c' q' hq2
      · exact husers u hux
  · intro io w a c s user q huser hq hrep
    unfold handleBet at hrep
    by_cases hg : s.gameState ≠ "waiting"
    · rw [if_pos hg] at hrep
      simp at hrep
    · rw [if_neg hg] at hrep
      by_cases hio1 : io.findUserOk = false
      · rw [if_pos hio1] at hrep
        simp at hrep
      · rw [if_neg hio1] at hrep
        simp only [huser] at hrep
        by_cases hlt : jsLt (user.balances c) a = true
        · rw [if_pos hlt] at hrep
          simp at hrep
        · have hlt' : jsLt (user.balances c) a = false := by
            cases hb : jsLt (user.balances c) a
            · rfl
            · exact absurd hb hlt
          rw [hq] at hlt'
          exact jsLt_some_false q a hlt'

/-- C5 (amended) witness: the theorem instantiated at the concrete
accepted 100 USD bet of `sW` and the concrete cashout of `sCash`, where
all stored balances start non-negative, the multiplier is 1, and the
bet amount 100 is non-negative. -/
theorem balances_nonneg_amended_witness :
    (∀ u ∈ (handleBet allOk ("w") 100 ("USD") sW).state.users, nonNegBalances u)
    ∧ (∀ u ∈ (handleCashout allOk ("w") sCash).state.users, nonNegBalances u)
    ∧ (100 : ℚ) ≤ 1000 := by
  have husers : ∀ u ∈ ([userW] : List User), nonNegBalances u := by
    intro u hu c q hq
    rw [List.mem_singleton.mp hu] at hq
    have hq2 : balW c = some q := hq
    unfold balW at hq2
    by_cases hc : c = "USD"
    · rw [if_pos hc] at hq2
      rw [← Option.some.inj hq2]
      norm_num
    · rw [if_neg hc] at hq2
      exact absurd hq2 (by simp)
  have hbets : ∀ r ∈ ([roundBet] : List GameRound), betsNonNeg r := by
    intro r hr b hb
    rw [List.mem_singleton.mp hr] at hb
    have hb2 : b ∈ ([betW] : List Bet) := hb
    rw [List.mem_singleton.mp hb2]
    norm_num [betW]
  refine ⟨balances_nonneg_amended.1 allOk ("w") 100 ("USD") sW husers,
    balances_nonneg_amended.2.1 allOk ("w") sCash (by norm_num [sCash]) hbets husers,
    balances_nonneg_amended.2.2 allOk ("w") 100 ("USD") sW userW 1000 rfl rfl ?_⟩
  norm_num [handleBet, allOk, sW, userW, balW, round0, findUser, jsLt,
    findLatestRound, latestFrom, List.find?]

/-- C9 witness: the theorem instantiated at `sSeed` (100 stored rounds,
one unrevealed commitment `seedA`): the reveal fires, broadcasting
`seedA`'s seed and hash, and every stored hash still equals `hashFnW`
of its seed. -/
theorem seed_reveal_cadence_witness :
    (Msg.SEED_REVEALED seedA.serverSeed seedA.serverSeedHash
        ∈ (endGame 0 sSeed).broadcasts
      ∧ (endGame 0 sSeed).state.seeds = revealFirstUnrevealed sSeed.seeds)
    ∧ (∀ d ∈ (endGame 0 sSeed).state.seeds, d.serverSeedHash = hashFnW d.serverSeed) := by
  have h := seed_reveal_cadence hashFnW sSeed 0 round0 rfl
    (by
      intro d hd
      rw [List.mem_singleton.mp hd]
      rfl)
  exact ⟨h.2.2.2.2.1 (by decide) seedA rfl, h.1⟩

end Crash
